import Mathlib

/-!
Verification of the streaming download proxy of this repository.

The repository is a set of near-duplicate Express servers (src/index.js,
src/unnamed/part_000, src/unnamed/part_001).  The definitions below are a
shallow embedding of the JavaScript in those files:

* the yt-dlp format post-processing of getVideoInfo (filter, map, sort by
  descending parsed quality) — identical in every variant;
* the format-selection logic of GET /api/video/download in src/index.js
  lines 111-256 (the url/filename/quality variant, duplicated in
  src/unnamed/part_000 lines 175-320);
* the itag-based GET /api/video/download of src/unnamed/part_001
  lines 106-261 (duplicated as the second server inside src/index.js);
* the chunk relay (childProcess.stdout data handler / response.pipe);
* the activeDownloads session lifecycle of the second server in
  src/index.js (lines 828-995) together with DELETE /api/downloads/:id.

JavaScript value semantics that the code relies on are modelled explicitly:
string/number truthiness, parseInt, decodeURIComponent (ASCII fragment),
String.prototype.includes.  External collaborators (yt-dlp, the network,
ytdl.validateURL) appear as oracle parameters.
-/

namespace YtProxy

/-- Truthiness of a possibly-absent JS string: undefined and the empty
string are falsy. -/
def jsTruthyStr : Option String → Bool
  | some s => decide (s ≠ "")
  | none => false

/-- Truthiness of a possibly-absent JS number: undefined, null and 0 are
falsy. -/
def jsTruthyNatOpt : Option Nat → Bool
  | some n => decide (n ≠ 0)
  | none => false

/-- JS string rendering of a possibly-null number (null prints as the
string null when concatenated). -/
def jsShowNatOpt : Option Nat → String
  | some n => toString n
  | none => "null"

/-- The pattern list matches at the head of the second list. -/
def matchesAt : List Char → List Char → Bool
  | [], _ => true
  | _ :: _, [] => false
  | p :: ps, c :: cs => p == c && matchesAt ps cs

/-- The pattern list occurs contiguously somewhere in the second list. -/
def containsSeq (pat : List Char) : List Char → Bool
  | [] => pat.isEmpty
  | c :: cs => matchesAt pat (c :: cs) || containsSeq pat cs

/-- Model of JS String.prototype.includes. -/
def containsStr (s pat : String) : Bool :=
  containsSeq pat.data s.data

/-- Value of one hexadecimal digit. -/
def hexVal (c : Char) : Option Nat :=
  if '0' ≤ c ∧ c ≤ '9' then some (c.toNat - 48)
  else if 'a' ≤ c ∧ c ≤ 'f' then some (c.toNat - 87)
  else if 'A' ≤ c ∧ c ≤ 'F' then some (c.toNat - 55)
  else none

/-- Model of decodeURIComponent on the ASCII fragment: each %HH escape
becomes the character with that code, a malformed escape throws (none);
multi-byte UTF-8 escapes do not occur in the inputs considered here. -/
def percentDecode : List Char → Option (List Char)
  | [] => some []
  | c :: rest =>
    if c = '%' then
      match rest with
      | h1 :: h2 :: rest2 =>
        match hexVal h1, hexVal h2, percentDecode rest2 with
        | some a, some b, some ds => some (Char.ofNat (16 * a + b) :: ds)
        | _, _, _ => none
      | _ => none
    else
      (percentDecode rest).map (fun ds => c :: ds)

/-- Leading whitespace removed, as parseInt does before scanning. -/
def skipWs : List Char → List Char
  | [] => []
  | c :: cs => if c.isWhitespace then skipWs cs else c :: cs

/-- Decimal value of the longest digit run at the head of the list. -/
def digitsVal : List Char → Nat → Nat
  | [], acc => acc
  | c :: cs, acc => if c.isDigit then digitsVal cs (10 * acc + (c.toNat - 48)) else acc

/-- Model of the JS idiom parseInt(s) with a fallback of 0 for NaN, as the
sort comparator of getVideoInfo writes it: an optional sign and the leading
digit run are read, anything else yields 0. -/
def jsParseIntOr0 (s : String) : Int :=
  match skipWs s.data with
  | [] => 0
  | c :: cs =>
    if c = '-' then
      match cs with
      | d :: ds => if d.isDigit then -(digitsVal (d :: ds) 0 : Int) else 0
      | [] => 0
    else if c = '+' then
      match cs with
      | d :: ds => if d.isDigit then (digitsVal (d :: ds) 0 : Int) else 0
      | [] => 0
    else if c.isDigit then (digitsVal (c :: cs) 0 : Int) else 0

/-- One raw yt-dlp format entry, as the JSON manifest delivers it.  Fields
the download path never reads (fps, duration, tbr of the display string)
are carried only where a claim depends on them.  A null codec string is
any string other than the sentinel none, exactly as the JS comparisons
against the literal treat it. -/
structure RawFormat where
  format_id : String
  quality : Option String
  height : Option Nat
  width : Option Nat
  ext : String
  vcodec : String
  acodec : String
  tbr : Option Nat
  abr : Option Nat
  filesize : Option Nat
  url : String
  deriving DecidableEq, Repr

/-- The processed format descriptor getVideoInfo returns (src/index.js
lines 42-60). -/
structure Format where
  itag : String
  quality : String
  container : String
  hasVideo : Bool
  hasAudio : Bool
  videoCodec : String
  audioCodec : String
  bitrate : Nat
  filesize : Option Nat
  url : String
  deriving DecidableEq, Repr

/-- The filter of getVideoInfo (src/index.js line 41): keep entries with a
truthy url whose codecs are not both the sentinel none. -/
def keepFormat (f : RawFormat) : Bool :=
  decide (f.url ≠ "") && (decide (f.vcodec ≠ "none") || decide (f.acodec ≠ "none"))

/-- The quality label of the mapped format (src/index.js lines 44-46):
the raw quality field when truthy, else height+p, else widthxheight,
else unknown. -/
def qualityLabel (f : RawFormat) : String :=
  match f.quality with
  | some q => if q = "" then fallbackLabel f else q
  | none => fallbackLabel f
where
  fallbackLabel (f : RawFormat) : String :=
    if jsTruthyNatOpt f.height then toString (f.height.getD 0) ++ "p"
    else if jsTruthyNatOpt f.width then
      toString (f.width.getD 0) ++ "x" ++ jsShowNatOpt f.height
    else "unknown"

/-- The map of getVideoInfo (src/index.js lines 42-60). -/
def toFormat (f : RawFormat) : Format where
  itag := f.format_id
  quality := qualityLabel f
  container := f.ext
  hasVideo := decide (f.vcodec ≠ "none")
  hasAudio := decide (f.acodec ≠ "none")
  videoCodec := f.vcodec
  audioCodec := f.acodec
  bitrate :=
    if jsTruthyNatOpt f.tbr then f.tbr.getD 0
    else if jsTruthyNatOpt f.abr then f.abr.getD 0
    else 0
  filesize := f.filesize
  url := f.url

/-- The sort key of the comparator (src/index.js lines 61-65):
parseInt of the quality label with 0 for NaN. -/
def qKey (f : Format) : Int :=
  jsParseIntOr0 f.quality

/-- The comparator of getVideoInfo orders by descending numeric quality.
Array.prototype.sort with the comparator (a, b) => bHeight - aHeight
produces the stable permutation sorted by this ordering; since that
permutation is unique, any stable sort models it, and a structurally
recursive insertion sort is used so that terms evaluate. -/
def qualityOrder (a b : Format) : Prop :=
  qKey b ≤ qKey a

instance : DecidableRel qualityOrder :=
  fun a b => inferInstanceAs (Decidable (qKey b ≤ qKey a))

instance : IsTotal Format qualityOrder :=
  ⟨fun a b => le_total (qKey b) (qKey a)⟩

instance : IsTrans Format qualityOrder :=
  ⟨fun _ _ _ hab hbc => le_trans hbc hab⟩

/-- The whole format pipeline of getVideoInfo: filter, map, sort by
descending parsed quality (src/index.js lines 40-65). -/
def processFormats (raws : List RawFormat) : List Format :=
  List.insertionSort qualityOrder ((raws.filter keepFormat).map toFormat)

/-- The raw yt-dlp video manifest (the fields the download path reads). -/
structure RawVideoInfo where
  id : String
  title : String
  formats : List RawFormat
  deriving Repr

/-- The selector test of the download handler (src/index.js lines 130-132):
a format matches when the selector equals its itag or its quality label. -/
def matchesSelector (q : String) (f : Format) : Bool :=
  decide (f.itag = q) || decide (f.quality = q)

/-- The fallback of the download handler (src/index.js lines 136-140):
first format offering both tracks, else the head of the list. -/
def fallbackFormat (fs : List Format) : Option Format :=
  match fs.find? (fun f => f.hasVideo && f.hasAudio) with
  | some f => some f
  | none => fs.head?

/-- Format selection of GET /api/video/download (src/index.js lines
128-140): with a truthy quality selector, the first format whose itag or
quality label equals it; when that finds nothing, or no selector is given,
the fallback. -/
def selectFormat (quality? : Option String) (fs : List Format) : Option Format :=
  match (if jsTruthyStr quality? then fs.find? (matchesSelector (quality?.getD "")) else none) with
  | some f => some f
  | none => fallbackFormat fs

/-- The no-downloadable-format test of the handler (src/index.js line 142):
nothing selected, or the selected entry has a falsy url. -/
def selectionFails (quality? : Option String) (fs : List Format) : Bool :=
  match selectFormat quality? fs with
  | none => true
  | some f => decide (f.url = "")

/-- Selection as the specification words it, for comparison with
selectFormat: an exact match on the format identifier is preferred over an
exact match on the quality label, then the same fallback chain. -/
def specSelectFormat (quality? : Option String) (fs : List Format) : Option Format :=
  match (if jsTruthyStr quality? then fs.find? (fun f => decide (f.itag = quality?.getD "")) else none) with
  | some f => some f
  | none =>
    match (if jsTruthyStr quality? then fs.find? (fun f => decide (f.quality = quality?.getD "")) else none) with
    | some f => some f
    | none => fallbackFormat fs

/-- The sanitizer of src/index.js lines 82-87: the characters the regex
class lists become underscores. -/
def isSanitized (c : Char) : Bool :=
  c = '<' || c = '>' || c = ':' || c = '"' || c = '/' || c = '\\' ||
  c = '|' || c = '?' || c = '*'

/-- Whitespace runs collapse to one underscore (the \s+ replacement);
the flag records whether the previous character was whitespace. -/
def collapseWs (prevWs : Bool) : List Char → List Char
  | [] => []
  | c :: cs =>
    if c.isWhitespace then
      if prevWs then collapseWs true cs else '_' :: collapseWs true cs
    else c :: collapseWs false cs

/-- sanitizeFilename of src/index.js lines 82-87: forbidden characters to
underscores, whitespace runs to one underscore, truncated to 100. -/
def sanitizeFilename (s : String) : String :=
  String.mk (((s.data.map fun c => if isSanitized c then '_' else c) |> collapseWs false).take 100)

/-- What the url/quality download handler replies: an error status, or a
streamed fetch of the given source url presented as the given attachment
filename.  A fetch is the only reply that opens a network connection. -/
inductive DlReply
  | errorStatus (code : Nat)
  | fetch (url : String) (filename : String)
  deriving DecidableEq, Repr

/-- Observable trace of one request to the url/quality download handler:
the url metadata resolution was invoked with, if any, and the reply. -/
structure DlTrace where
  resolvedUrl : Option String
  reply : DlReply
  deriving DecidableEq, Repr

/-- GET /api/video/download of src/index.js lines 111-256 (the
url/filename/quality variant).  resolve is the external metadata
collaborator; none models a throw, answered by the catch around
getVideoInfo with status 500.  A malformed escape makes
decodeURIComponent throw into the outer catch, also 500. -/
def handleDownload (resolve : String → Option RawVideoInfo)
    (url? filename? quality? : Option String) : DlTrace :=
  if jsTruthyStr url? then
    match percentDecode (url?.getD "").data with
    | none => { resolvedUrl := none, reply := .errorStatus 500 }
    | some dc =>
      let u := String.mk dc
      if containsStr u "youtube.com" || containsStr u "youtu.be" then
        match resolve u with
        | none => { resolvedUrl := some u, reply := .errorStatus 500 }
        | some raw =>
          let fs := processFormats raw.formats
          match selectFormat quality? fs with
          | none => { resolvedUrl := some u, reply := .errorStatus 404 }
          | some f =>
            if f.url = "" then { resolvedUrl := some u, reply := .errorStatus 404 }
            else
              let ext := if f.container = "" then "mp4" else f.container
              let fn0 := if jsTruthyStr filename? then filename?.getD ""
                         else sanitizeFilename raw.title ++ "." ++ ext
              let fn := if fn0 = "" then "download.mp4" else fn0
              { resolvedUrl := some u, reply := .fetch f.url fn }
      else
        let fn := if jsTruthyStr filename? then filename?.getD "" else "download.mp4"
        { resolvedUrl := none, reply := .fetch u fn }
  else { resolvedUrl := none, reply := .errorStatus 400 }

/-- Content type by container for the itag variant (src/unnamed/part_001
lines 160-170). -/
def contentTypeForExt (ext : String) : String :=
  if ext = "mp4" then "video/mp4"
  else if ext = "webm" then "video/webm"
  else if ext = "mp3" then "audio/mpeg"
  else if ext = "m4a" then "audio/mp4"
  else "application/octet-stream"

/-- Content-Length of the itag variant (src/unnamed/part_001 lines
172-176): set from the manifest filesize when that is truthy, absent
otherwise; never computed from the payload. -/
def itagContentLength (f : RawFormat) : Option String :=
  if jsTruthyNatOpt f.filesize then some (toString (f.filesize.getD 0)) else none

/-- What the itag download handler replies. -/
inductive ItagReply
  | errorStatus (code : Nat)
  | stream (contentType : String) (contentLength : Option String) (filename : String)
  deriving DecidableEq, Repr

/-- Observable trace of one request to the itag download handler: the url
resolved (if resolution ran), whether a yt-dlp child process was spawned,
and the reply. -/
structure ItagTrace where
  resolvedUrl : Option String
  spawned : Bool
  reply : ItagReply
  deriving DecidableEq, Repr

/-- Model of toLowerCase on the ASCII fragment. -/
def lowerChar (c : Char) : Char :=
  if 'A' ≤ c ∧ c ≤ 'Z' then Char.ofNat (c.toNat + 32) else c

/-- Model of String.prototype.endsWith. -/
def endsWithStr (s suf : String) : Bool :=
  matchesAt suf.data (s.data.drop (s.data.length - suf.data.length))

/-- The filename of the itag variant (src/unnamed/part_001 lines 144-151):
the query filename or the sanitized title, with the container extension
appended unless already there (case-insensitively). -/
def itagFilename (filename? : Option String) (title ext : String) : String :=
  let base := if jsTruthyStr filename? then filename?.getD "" else sanitizeFilename title
  if endsWithStr (String.mk (base.data.map lowerChar)) ("." ++ ext) then base
  else base ++ "." ++ ext

/-- GET /api/video/download of src/unnamed/part_001 lines 106-261 (the
videoUrl/itag/filename variant).  validate models ytdl.validateURL;
resolve the yt-dlp metadata call, none answered with 500 by the outer
catch.  An itag absent from the manifest is answered with status 400
(Requested format not available). -/
def handleDownloadItag (resolve : String → Option RawVideoInfo)
    (validate : String → Bool)
    (videoUrl? itag? filename? : Option String) : ItagTrace :=
  if jsTruthyStr videoUrl? && jsTruthyStr itag? then
    let vu := videoUrl?.getD ""
    if validate vu then
      match resolve vu with
      | none => { resolvedUrl := some vu, spawned := false, reply := .errorStatus 500 }
      | some raw =>
        match raw.formats.find? (fun f => decide (f.format_id = itag?.getD "")) with
        | none => { resolvedUrl := some vu, spawned := false, reply := .errorStatus 400 }
        | some fmt =>
          let ext := if fmt.ext = "" then "mp4" else fmt.ext
          { resolvedUrl := some vu
            spawned := true
            reply := .stream (contentTypeForExt fmt.ext) (itagContentLength fmt)
              (itagFilename filename? raw.title ext) }
    else { resolvedUrl := none, spawned := false, reply := .errorStatus 400 }
  else { resolvedUrl := none, spawned := false, reply := .errorStatus 400 }

/-- Head of the upstream HTTP response the url/quality handler proxies
(src/index.js lines 198-217): status code and the two headers it copies.
Header values are strings; an empty value is falsy in the guard. -/
structure UpstreamHead where
  statusCode : Nat
  contentType : Option String
  contentLength : Option String
  deriving DecidableEq, Repr

/-- What the proxy does with an upstream head. -/
inductive UpReply
  | errorStatus (code : Nat)
  | streamHeaders (contentType : String) (contentLength : Option String)
  deriving DecidableEq, Repr

/-- The Content-Length the proxy forwards (src/index.js lines 210-213):
the upstream header when truthy, absent otherwise. -/
def copiedContentLength (upLen : Option String) : Option String :=
  if jsTruthyStr upLen then upLen else none

/-- The upstream callback of src/index.js lines 198-241: upstream status
at least 400 aborts with 500; otherwise the stream starts, carrying the
upstream content type (octet-stream until overwritten) and the copied
content length. -/
def upstreamReply (up : UpstreamHead) : UpReply :=
  if 400 ≤ up.statusCode then .errorStatus 500
  else
    .streamHeaders
      (if jsTruthyStr up.contentType then up.contentType.getD "" else "application/octet-stream")
      (copiedContentLength up.contentLength)

/-- Byte counters of the relay; the state carries only the two counters,
never the payload. -/
structure RelayState where
  downloadedBytes : Nat
  writtenBytes : Nat
  deriving DecidableEq, Repr

/-- One chunk through the relay (src/index.js lines 928-933, duplicated in
src/unnamed/part_001 lines 204-209): the byte counter always advances by
the chunk length; the chunk is written only while the response is
writable.  The pipe of the url/quality variant (src/index.js line 241) is
the special case in which the response stays writable. -/
def relayChunk (st : RelayState) (chunk : Nat × Bool) : RelayState :=
  { downloadedBytes := st.downloadedBytes + chunk.1
    writtenBytes := if chunk.2 then st.writtenBytes + chunk.1 else st.writtenBytes }

/-- A whole transfer: each chunk is its length paired with the writability
of the response at that moment. -/
def relayRun (chunks : List (Nat × Bool)) : RelayState :=
  chunks.foldl relayChunk { downloadedBytes := 0, writtenBytes := 0 }

/-- Status of the activeDownloads entry of one session (the second server
of src/index.js, lines 828-995).  The code only ever stores starting,
downloading and cancelled. -/
inductive SessionStatus
  | starting
  | downloading
  | cancelled
  deriving DecidableEq, Repr

/-- Per-session state: the tracking entry (none once deleted), whether the
five-second grace deletion is pending, and whether the yt-dlp child has
been signalled. -/
structure ProxyState where
  entry : Option SessionStatus
  graceScheduled : Bool
  processKilled : Bool
  deriving DecidableEq, Repr

/-- The handlers that touch a session after its transfer began. -/
inductive SessionEv
  | stdoutEnd
  | procClose
  | procError
  | reqClose
  | reqTimeout
  | graceExpire
  | cancelHttp
  deriving DecidableEq, Repr

/-- One handler firing, as src/index.js lines 935-995 and the DELETE
/api/downloads/:id route (lines 1066-1075) write it:
stdout end, process close and process error delete the entry;
client disconnect kills the child, marks the entry cancelled and schedules
its deletion after five seconds; request timeout only kills the child;
the grace timer deletes; the cancel route deletes the entry and touches
nothing else — in particular it never signals the child process. -/
def sessionStep (s : ProxyState) (e : SessionEv) : ProxyState :=
  match e with
  | .stdoutEnd => { s with entry := none }
  | .procClose => { s with entry := none }
  | .procError => { s with entry := none }
  | .reqClose =>
    match s.entry with
    | some _ => { entry := some .cancelled, graceScheduled := true, processKilled := true }
    | none => { s with processKilled := true }
  | .reqTimeout => { s with processKilled := true }
  | .graceExpire => { s with entry := none, graceScheduled := false }
  | .cancelHttp =>
    match s.entry with
    | some _ => { s with entry := none }
    | none => s

/-- The session once its transfer is running (tracker set to downloading,
handlers installed, child alive). -/
def initialSession : ProxyState :=
  { entry := some .downloading, graceScheduled := false, processKilled := false }

/-- The handlers of a whole trace, in order. -/
def runSession (s : ProxyState) (evs : List SessionEv) : ProxyState :=
  evs.foldl sessionStep s

/-- A state is terminal when the tracking entry is gone or marked
cancelled. -/
def isTerminalB (s : ProxyState) : Bool :=
  decide (s.entry = none) || decide (s.entry = some .cancelled)

/-- Once marked cancelled, the five-second deletion is pending. -/
def GraceInv (s : ProxyState) : Prop :=
  s.entry = some .cancelled → s.graceScheduled = true

/-- How many events of the trace move the session from a live state into a
terminal one. -/
def termCount : ProxyState → List SessionEv → Nat
  | _, [] => 0
  | s, e :: es =>
    (if isTerminalB s = false ∧ isTerminalB (sessionStep s e) = true then 1 else 0)
      + termCount (sessionStep s e) es

/-- A muxed 720p format whose quality label is the string 720p. -/
def cexFmtA : Format :=
  { itag := "22", quality := "720p", container := "mp4", hasVideo := true,
    hasAudio := true, videoCodec := "avc1.64001F", audioCodec := "mp4a.40.2",
    bitrate := 1200, filesize := some 1000000, url := "https://cdn.example/a" }

/-- A video-only format whose itag is the string 720p. -/
def cexFmtB : Format :=
  { itag := "720p", quality := "1280x720", container := "webm", hasVideo := true,
    hasAudio := false, videoCodec := "vp9", audioCodec := "none",
    bitrate := 900, filesize := none, url := "https://cdn.example/b" }

/-- A raw 360p manifest entry. -/
def cexRaw18 : RawFormat :=
  { format_id := "18", quality := none, height := some 360, width := some 640,
    ext := "mp4", vcodec := "avc1", acodec := "mp4a", tbr := some 500,
    abr := none, filesize := some 1000000, url := "https://cdn.example/18" }

/-- A raw 720p manifest entry. -/
def cexRaw22 : RawFormat :=
  { format_id := "22", quality := none, height := some 720, width := some 1280,
    ext := "mp4", vcodec := "avc1", acodec := "mp4a", tbr := some 1200,
    abr := none, filesize := some 2000000, url := "https://cdn.example/22" }

/-- A concrete manifest with the two raw entries. -/
def cexRawInfo : RawVideoInfo :=
  { id := "abc", title := "Demo Video", formats := [cexRaw18, cexRaw22] }

/-- A metadata collaborator that always resolves to the concrete manifest. -/
def cexResolve : String → Option RawVideoInfo :=
  fun _ => some cexRawInfo

/-- A URL validator that accepts everything. -/
def allValid : String → Bool :=
  fun _ => true

/-- A successful upstream response head with both headers present. -/
def cexUp : UpstreamHead :=
  { statusCode := 200, contentType := some "video/mp4", contentLength := some "4096" }

/-! ## Helper lemmas -/

/-- On a character other than the escape head, decoding proceeds
pointwise. -/
theorem percentDecode_cons_ne {c : Char} {rest : List Char} (hc : ¬ c = '%') :
    percentDecode (c :: rest) = (percentDecode rest).map (fun ds => c :: ds) := by
  cases rest with
  | nil => simp [percentDecode, hc]
  | cons d ds =>
    cases ds with
    | nil =>
      rw [percentDecode, if_neg hc]
      simp
    | cons e es =>
      rw [percentDecode, if_neg hc]

/-- A string without percent signs decodes to itself. -/
theorem percentDecode_eq_self : ∀ l : List Char, '%' ∉ l → percentDecode l = some l
  | [], _ => rfl
  | c :: cs, h => by
    have hc : ¬ (c = '%') := fun hh => h (hh ▸ List.mem_cons_self c cs)
    have ih := percentDecode_eq_self cs (fun hm => h (List.mem_cons_of_mem c hm))
    rw [percentDecode_cons_ne hc, ih]
    rfl

/-- The fallback only returns members of the list. -/
theorem fallbackFormat_mem {fs : List Format} {f : Format}
    (h : fallbackFormat fs = some f) : f ∈ fs := by
  unfold fallbackFormat at h
  cases hfind : fs.find? (fun g => g.hasVideo && g.hasAudio) with
  | some g =>
    rw [hfind] at h
    cases h
    exact List.mem_of_find?_eq_some hfind
  | none =>
    rw [hfind] at h
    cases fs with
    | nil => cases h
    | cons a t =>
      simp only [List.head?] at h
      cases h
      exact List.mem_cons_self _ _

/-- The fallback finds nothing exactly on the empty list. -/
theorem fallbackFormat_eq_none_iff {fs : List Format} :
    fallbackFormat fs = none ↔ fs = [] := by
  constructor
  · intro h
    cases fs with
    | nil => rfl
    | cons a t =>
      unfold fallbackFormat at h
      cases hfind : List.find? (fun g => g.hasVideo && g.hasAudio) (a :: t) with
      | some g => rw [hfind] at h; cases h
      | none => rw [hfind] at h; cases h
  · intro h
    subst h
    rfl

/-- Selection only returns members of the list. -/
theorem selectFormat_mem {q : Option String} {fs : List Format} {f : Format}
    (h : selectFormat q fs = some f) : f ∈ fs := by
  unfold selectFormat at h
  cases hq : jsTruthyStr q with
  | true =>
    rw [hq] at h
    simp only [if_pos] at h
    cases hfind : fs.find? (matchesSelector (q.getD "")) with
    | some g =>
      rw [hfind] at h
      cases h
      exact List.mem_of_find?_eq_some hfind
    | none =>
      rw [hfind] at h
      exact fallbackFormat_mem h
  | false =>
    rw [hq] at h
    simp only [Bool.false_eq_true, if_false] at h
    exact fallbackFormat_mem h

/-- Selection finds nothing exactly on the empty list. -/
theorem selectFormat_eq_none_iff {q : Option String} {fs : List Format} :
    selectFormat q fs = none ↔ fs = [] := by
  constructor
  · intro h
    unfold selectFormat at h
    cases hsel : (if jsTruthyStr q then fs.find? (matchesSelector (q.getD "")) else none) with
    | some g => rw [hsel] at h; cases h
    | none =>
      rw [hsel] at h
      exact fallbackFormat_eq_none_iff.mp h
  · intro h
    subst h
    simp [selectFormat, fallbackFormat, List.find?]

/-- Membership in the processed list comes from a kept raw entry. -/
theorem mem_processFormats {raws : List RawFormat} {f : Format} :
    f ∈ processFormats raws ↔ ∃ rf ∈ raws, keepFormat rf = true ∧ toFormat rf = f := by
  unfold processFormats
  rw [List.mem_insertionSort, List.mem_map]
  constructor
  · rintro ⟨rf, hrf, hmap⟩
    have hm := List.mem_filter.mp hrf
    exact ⟨rf, hm.1, hm.2, hmap⟩
  · rintro ⟨rf, h1, h2, h3⟩
    exact ⟨rf, List.mem_filter.mpr ⟨h1, h2⟩, h3⟩

/-- Every processed format has a non-empty source url. -/
theorem processFormats_url {raws : List RawFormat} {f : Format}
    (h : f ∈ processFormats raws) : f.url ≠ "" := by
  obtain ⟨rf, _, hkeep, hmap⟩ := mem_processFormats.mp h
  unfold keepFormat at hkeep
  rw [Bool.and_eq_true] at hkeep
  have hurl := of_decide_eq_true hkeep.1
  rw [← hmap]
  exact hurl

/-- Every processed format has at least one of its two tracks. -/
theorem processFormats_tracks {raws : List RawFormat} {f : Format}
    (h : f ∈ processFormats raws) : f.hasVideo = true ∨ f.hasAudio = true := by
  obtain ⟨rf, _, hkeep, hmap⟩ := mem_processFormats.mp h
  unfold keepFormat at hkeep
  rw [Bool.and_eq_true, Bool.or_eq_true] at hkeep
  rw [← hmap]
  unfold toFormat
  rcases hkeep.2 with hv | ha
  · left
    exact hv
  · right
    exact ha

/-- Over a processed list, the no-downloadable-format condition holds
exactly on the empty list. -/
theorem selectionFails_iff {q : Option String} {raws : List RawFormat} :
    selectionFails q (processFormats raws) = true ↔ processFormats raws = [] := by
  unfold selectionFails
  cases hsel : selectFormat q (processFormats raws) with
  | none =>
    simp only [true_iff]
    exact selectFormat_eq_none_iff.mp hsel
  | some f =>
    constructor
    · intro hd
      exact absurd (of_decide_eq_true hd) (processFormats_url (selectFormat_mem hsel))
    · intro he
      rw [he] at hsel
      have : selectFormat q ([] : List Format) = none := selectFormat_eq_none_iff.mpr rfl
      rw [this] at hsel
      cases hsel

/-- The processed list is sorted by descending parsed quality. -/
theorem processFormats_sorted (raws : List RawFormat) :
    List.Sorted qualityOrder (processFormats raws) :=
  List.sorted_insertionSort qualityOrder _

/-- Terminal states absorb every handler: no event revives a session. -/
theorem sessionStep_terminal {s : ProxyState} (e : SessionEv)
    (h : isTerminalB s = true) : isTerminalB (sessionStep s e) = true := by
  have hh := h
  unfold isTerminalB at hh
  rw [Bool.or_eq_true, decide_eq_true_iff, decide_eq_true_iff] at hh
  cases e
  case stdoutEnd => simp [sessionStep, isTerminalB]
  case procClose => simp [sessionStep, isTerminalB]
  case procError => simp [sessionStep, isTerminalB]
  case reqClose =>
    cases hs : s.entry with
    | none => simp [sessionStep, hs, isTerminalB]
    | some st => simp [sessionStep, hs, isTerminalB]
  case reqTimeout =>
    unfold sessionStep isTerminalB
    rw [Bool.or_eq_true, decide_eq_true_iff, decide_eq_true_iff]
    exact hh
  case graceExpire => simp [sessionStep, isTerminalB]
  case cancelHttp =>
    cases hs : s.entry with
    | none =>
      unfold sessionStep
      rw [hs]
      exact h
    | some st => simp [sessionStep, hs, isTerminalB]

/-- From a terminal state no further terminal transition is counted. -/
theorem termCount_zero : ∀ (evs : List SessionEv) {s : ProxyState},
    isTerminalB s = true → termCount s evs = 0 := by
  intro evs
  induction evs with
  | nil => intro s h; rfl
  | cons e es ih =>
    intro s h
    unfold termCount
    rw [if_neg, ih (sessionStep_terminal e h)]
    rintro ⟨h1, _⟩
    rw [h] at h1
    cases h1

/-- Any trace makes at most one terminal transition. -/
theorem termCount_le_one : ∀ (evs : List SessionEv) (s : ProxyState),
    termCount s evs ≤ 1 := by
  intro evs
  induction evs with
  | nil => intro s; exact Nat.zero_le 1
  | cons e es ih =>
    intro s
    unfold termCount
    by_cases hC : isTerminalB s = false ∧ isTerminalB (sessionStep s e) = true
    · rw [if_pos hC, termCount_zero es hC.2]
    · rw [if_neg hC]
      simpa using ih (sessionStep s e)

/-- Every handler preserves the pending-deletion invariant. -/
theorem graceInv_step {s : ProxyState} (e : SessionEv)
    (h : GraceInv s) : GraceInv (sessionStep s e) := by
  cases e
  case stdoutEnd => intro hc; cases hc
  case procClose => intro hc; cases hc
  case procError => intro hc; cases hc
  case reqClose =>
    cases hs : s.entry with
    | none => intro hc; rw [sessionStep, hs] at hc; exact absurd (hs ▸ hc) (by simp [hs])
    | some st => intro hc; rw [sessionStep, hs]
  case reqTimeout => intro hc; exact h hc
  case graceExpire => intro hc; cases hc
  case cancelHttp =>
    cases hs : s.entry with
    | none =>
      unfold sessionStep
      rw [hs]
      exact h
    | some st => intro hc; rw [sessionStep, hs] at hc; cases hc

/-- The invariant holds along every trace from the running session. -/
theorem graceInv_run : ∀ (evs : List SessionEv) {s : ProxyState},
    GraceInv s → GraceInv (runSession s evs) := by
  intro evs
  induction evs with
  | nil => intro s h; exact h
  | cons e es ih =>
    intro s h
    exact ih (graceInv_step e h)

/-- The downloaded-byte counter accumulates the chunk lengths. -/
theorem foldl_relay_downloaded : ∀ (chunks : List (Nat × Bool)) (st : RelayState),
    (List.foldl relayChunk st chunks).downloadedBytes
      = st.downloadedBytes + (chunks.map Prod.fst).sum := by
  intro chunks
  induction chunks with
  | nil => intro st; simp
  | cons c cs ih =>
    intro st
    rw [List.foldl_cons, ih, List.map_cons, List.sum_cons]
    simp only [relayChunk]
    omega

/-- While the response stays writable, the written-byte counter
accumulates the same chunk lengths. -/
theorem foldl_relay_written : ∀ (chunks : List (Nat × Bool)) (st : RelayState),
    (∀ c ∈ chunks, c.2 = true) →
    (List.foldl relayChunk st chunks).writtenBytes
      = st.writtenBytes + (chunks.map Prod.fst).sum := by
  intro chunks
  induction chunks with
  | nil => intro st _; simp
  | cons c cs ih =>
    intro st h
    rw [List.foldl_cons, ih _ (fun d hd => h d (List.mem_cons_of_mem c hd)),
      List.map_cons, List.sum_cons]
    simp only [relayChunk, h c (List.mem_cons_self _ _), if_true]
    omega

/-- Reduction of the url/quality handler on a self-decoding URL that the
YouTube guard accepts. -/
theorem handleDownload_yt_self (resolve : String → Option RawVideoInfo)
    (u : String) (filename? quality? : Option String)
    (hu : u ≠ "") (hd : percentDecode u.data = some u.data)
    (hyt : (containsStr u "youtube.com" || containsStr u "youtu.be") = true) :
    handleDownload resolve (some u) filename? quality? =
      match resolve u with
      | none => { resolvedUrl := some u, reply := .errorStatus 500 }
      | some raw =>
        match selectFormat quality? (processFormats raw.formats) with
        | none => { resolvedUrl := some u, reply := .errorStatus 404 }
        | some f =>
          if f.url = "" then { resolvedUrl := some u, reply := .errorStatus 404 }
          else
            { resolvedUrl := some u,
              reply := .fetch f.url
                (let ext := if f.container = "" then "mp4" else f.container
                 let fn0 := if jsTruthyStr filename? then filename?.getD ""
                            else sanitizeFilename raw.title ++ "." ++ ext
                 if fn0 = "" then "download.mp4" else fn0) } := by
  unfold handleDownload
  rw [show jsTruthyStr (some u) = true from decide_eq_true hu]
  simp only [if_true]
  rw [show (some u).getD "" = u from rfl, hd]
  simp only [hyt, if_true]

end YtProxy

/-! ## Claim theorems -/

namespace YtProxy

/-- C2: for every successful proxied transfer (the response stays writable
for every chunk), the bytes written to the client equal the bytes read
from the upstream stream or child stdout, and both equal the sum of the
chunk lengths; the relay state holds only the counters, never the
payload. -/
theorem c2_relay_round_trip (chunks : List (Nat × Bool))
    (h : ∀ c ∈ chunks, c.2 = true) :
    (relayRun chunks).writtenBytes = (relayRun chunks).downloadedBytes
    ∧ (relayRun chunks).downloadedBytes = (chunks.map Prod.fst).sum := by
  unfold relayRun
  rw [foldl_relay_downloaded, foldl_relay_written chunks _ h]
  exact ⟨rfl, Nat.zero_add _⟩

/-- Witness for C2 at a concrete two-chunk transfer. -/
theorem c2_relay_round_trip_witness :
    (relayRun [(3, true), (5, true)]).writtenBytes
        = (relayRun [(3, true), (5, true)]).downloadedBytes
    ∧ (relayRun [(3, true), (5, true)]).downloadedBytes
        = ([(3, true), (5, true)].map Prod.fst).sum :=
  c2_relay_round_trip [(3, true), (5, true)] (by decide)

/-- C4: a request without a truthy URL parameter is answered 400 by both
download handlers with an empty effect trace: metadata resolution is never
invoked, no child process is spawned, and no fetch reply (the only reply
that opens a network connection) is produced. -/
theorem c4_missing_url_rejected (resolve : String → Option RawVideoInfo)
    (validate : String → Bool) (filename? quality? itag? videoUrl? : Option String) :
    handleDownload resolve none filename? quality?
      = { resolvedUrl := none, reply := .errorStatus 400 }
    ∧ handleDownload resolve (some "") filename? quality?
      = { resolvedUrl := none, reply := .errorStatus 400 }
    ∧ handleDownloadItag resolve validate none itag? filename?
      = { resolvedUrl := none, spawned := false, reply := .errorStatus 400 }
    ∧ handleDownloadItag resolve validate videoUrl? none filename?
      = { resolvedUrl := none, spawned := false, reply := .errorStatus 400 } := by
  refine ⟨rfl, rfl, rfl, ?_⟩
  unfold handleDownloadItag
  rw [show (jsTruthyStr videoUrl? && jsTruthyStr none) = false from Bool.and_false _]
  rfl

/-- C5: along every trace of handler events from a running session, at
most one event moves the session into a terminal state, and a terminal
state means the tracking entry is already deleted or is marked cancelled
with the grace deletion pending, after which the grace timer removes
it. -/
theorem c5_session_lifecycle (evs : List SessionEv) :
    termCount initialSession evs ≤ 1
    ∧ (isTerminalB (runSession initialSession evs) = true →
        (runSession initialSession evs).entry = none
        ∨ ((runSession initialSession evs).entry = some .cancelled
           ∧ (runSession initialSession evs).graceScheduled = true
           ∧ (sessionStep (runSession initialSession evs) .graceExpire).entry = none)) := by
  constructor
  · exact termCount_le_one evs initialSession
  · intro ht
    have hinv : GraceInv (runSession initialSession evs) :=
      graceInv_run evs (fun hc => absurd hc (by decide))
    unfold isTerminalB at ht
    rw [Bool.or_eq_true, decide_eq_true_iff, decide_eq_true_iff] at ht
    rcases ht with h1 | h2
    · exact Or.inl h1
    · exact Or.inr ⟨h2, hinv h2, rfl⟩

/-- C6: evaluation of the cancellation triggers on a running session.
The explicit cancel route deletes the tracking entry but never signals
the child process, while client disconnect and request timeout do kill
it. -/
theorem c6_cancel_route_keeps_process :
    (runSession initialSession [SessionEv.cancelHttp]).entry = none
    ∧ (runSession initialSession [SessionEv.cancelHttp]).processKilled = false
    ∧ (runSession initialSession [SessionEv.reqClose]).processKilled = true
    ∧ (runSession initialSession [SessionEv.reqTimeout]).processKilled = true := by
  exact ⟨rfl, rfl, rfl, rfl⟩

/-- C7: on a successful upstream response the proxy streams with exactly
the copied Content-Length, which equals the upstream header when that is
truthy and is absent otherwise; the itag variant sets it from the manifest
filesize on the same rule.  Both are functions of the response head or
manifest alone, never of the payload. -/
theorem c7_content_length_forwarding (up : UpstreamHead) (f : RawFormat)
    (h : up.statusCode < 400) :
    upstreamReply up
      = .streamHeaders
          (if jsTruthyStr up.contentType then up.contentType.getD ""
           else "application/octet-stream")
          (copiedContentLength up.contentLength)
    ∧ (jsTruthyStr up.contentLength = true →
        copiedContentLength up.contentLength = up.contentLength)
    ∧ (jsTruthyStr up.contentLength = false →
        copiedContentLength up.contentLength = none)
    ∧ (jsTruthyNatOpt f.filesize = true →
        itagContentLength f = some (toString (f.filesize.getD 0)))
    ∧ (jsTruthyNatOpt f.filesize = false → itagContentLength f = none) := by
  refine ⟨?_, ?_, ?_, ?_, ?_⟩
  · unfold upstreamReply
    rw [if_neg (by omega)]
  · intro hl
    simp [copiedContentLength, hl]
  · intro hl
    simp [copiedContentLength, hl]
  · intro hf
    simp [itagContentLength, hf]
  · intro hf
    simp [itagContentLength, hf]

/-- Witness for C7 at a concrete upstream head and manifest entry. -/
theorem c7_content_length_forwarding_witness :
    upstreamReply cexUp
      = .streamHeaders
          (if jsTruthyStr cexUp.contentType then cexUp.contentType.getD ""
           else "application/octet-stream")
          (copiedContentLength cexUp.contentLength)
    ∧ (jsTruthyStr cexUp.contentLength = true →
        copiedContentLength cexUp.contentLength = cexUp.contentLength)
    ∧ (jsTruthyStr cexUp.contentLength = false →
        copiedContentLength cexUp.contentLength = none)
    ∧ (jsTruthyNatOpt cexRaw22.filesize = true →
        itagContentLength cexRaw22 = some (toString (cexRaw22.filesize.getD 0)))
    ∧ (jsTruthyNatOpt cexRaw22.filesize = false → itagContentLength cexRaw22 = none) :=
  c7_content_length_forwarding cexUp cexRaw22 (by decide)

/-- C8: the format list getVideoInfo returns is sorted by descending
parsed quality: at any two positions i before j, the numeric quality
parsed from the entry at j is at most the one parsed at i. -/
theorem c8_formats_sorted_desc (raws : List RawFormat) (i j : Nat)
    (hij : i < j) (hj : j < (processFormats raws).length) :
    qKey ((processFormats raws).get ⟨j, hj⟩)
      ≤ qKey ((processFormats raws).get ⟨i, Nat.lt_trans hij hj⟩) :=
  (processFormats_sorted raws).rel_get_of_lt hij

/-- Witness for C8 on a concrete two-entry manifest. -/
theorem c8_formats_sorted_desc_witness :
    qKey ((processFormats [cexRaw18, cexRaw22]).get ⟨1, by decide⟩)
      ≤ qKey ((processFormats [cexRaw18, cexRaw22]).get ⟨0, by decide⟩) :=
  c8_formats_sorted_desc [cexRaw18, cexRaw22] 0 1 (by decide) (by decide)

/-- C9: every format descriptor the pipeline returns has a non-empty
source url and at least one of its two tracks, so the handler's selection
over such a list fails exactly when the list is empty. -/
theorem c9_processed_invariant (raws : List RawFormat) (quality? : Option String) :
    (∀ f ∈ processFormats raws, f.url ≠ "" ∧ (f.hasVideo = true ∨ f.hasAudio = true))
    ∧ (selectionFails quality? (processFormats raws) = true ↔ processFormats raws = []) := by
  constructor
  · intro f hf
    exact ⟨processFormats_url hf, processFormats_tracks hf⟩
  · exact selectionFails_iff

end YtProxy

namespace YtProxy

/-- C1 (amended): with a truthy quality selector the handler picks the
first format, in list order, whose identifier or quality label equals the
selector — identifier matches are not preferred over label matches; when
nothing matches, or no selector is given, it falls back to the first
format with both tracks, else the head of the list. -/
theorem c1_selection_chain (q : String) (fs : List Format) (hq : q ≠ "") :
    ((∃ g ∈ fs, matchesSelector q g = true) →
      ∃ f as bs, selectFormat (some q) fs = some f ∧ matchesSelector q f = true
        ∧ fs = as ++ f :: bs ∧ ∀ g ∈ as, matchesSelector q g = false)
    ∧ ((∀ g ∈ fs, matchesSelector q g = false) →
        selectFormat (some q) fs = fallbackFormat fs)
    ∧ selectFormat none fs = fallbackFormat fs
    ∧ ((∃ g ∈ fs, (g.hasVideo && g.hasAudio) = true) →
      ∃ f as bs, fallbackFormat fs = some f ∧ (f.hasVideo && f.hasAudio) = true
        ∧ fs = as ++ f :: bs ∧ ∀ g ∈ as, (g.hasVideo && g.hasAudio) = false)
    ∧ ((∀ g ∈ fs, (g.hasVideo && g.hasAudio) = false) → fallbackFormat fs = fs.head?) := by
  have hqt : jsTruthyStr (some q) = true := decide_eq_true hq
  refine ⟨?_, ?_, ?_, ?_, ?_⟩
  · rintro ⟨g, hg, hmatch⟩
    have hsome : (fs.find? (matchesSelector q)).isSome :=
      List.find?_isSome.mpr ⟨g, hg, hmatch⟩
    obtain ⟨f, hf⟩ := Option.isSome_iff_exists.mp hsome
    obtain ⟨hpf, as, bs, heq, hprev⟩ := List.find?_eq_some.mp hf
    refine ⟨f, as, bs, ?_, hpf, heq, ?_⟩
    · unfold selectFormat
      rw [hqt]
      simp only [if_true, Option.getD]
      rw [hf]
    · intro g2 hg2
      have := hprev g2 hg2
      simpa using this
  · intro hall
    have hnone : fs.find? (matchesSelector q) = none :=
      List.find?_eq_none.mpr (fun x hx => by simp [hall x hx])
    unfold selectFormat
    rw [hqt]
    simp only [if_true, Option.getD]
    rw [hnone]
  · rfl
  · rintro ⟨g, hg, hmatch⟩
    have hsome : (fs.find? (fun f => f.hasVideo && f.hasAudio)).isSome :=
      List.find?_isSome.mpr ⟨g, hg, hmatch⟩
    obtain ⟨f, hf⟩ := Option.isSome_iff_exists.mp hsome
    obtain ⟨hpf, as, bs, heq, hprev⟩ := List.find?_eq_some.mp hf
    refine ⟨f, as, bs, ?_, hpf, heq, ?_⟩
    · unfold fallbackFormat
      rw [hf]
    · intro g2 hg2
      have hb := hprev g2 hg2
      cases hx : (g2.hasVideo && g2.hasAudio) with
      | false => rfl
      | true =>
        rw [hx] at hb
        exact absurd hb (by decide)
  · intro hall
    have hnone : fs.find? (fun f => f.hasVideo && f.hasAudio) = none :=
      List.find?_eq_none.mpr (fun x hx => by simp [hall x hx])
    unfold fallbackFormat
    rw [hnone]

/-- Witness for C1 on a concrete one-format list and the selector 720p. -/
theorem c1_selection_chain_witness :
    ((∃ g ∈ [cexFmtA], matchesSelector "720p" g = true) →
      ∃ f as bs, selectFormat (some "720p") [cexFmtA] = some f
        ∧ matchesSelector "720p" f = true
        ∧ [cexFmtA] = as ++ f :: bs ∧ ∀ g ∈ as, matchesSelector "720p" g = false)
    ∧ ((∀ g ∈ [cexFmtA], matchesSelector "720p" g = false) →
        selectFormat (some "720p") [cexFmtA] = fallbackFormat [cexFmtA])
    ∧ selectFormat none [cexFmtA] = fallbackFormat [cexFmtA]
    ∧ ((∃ g ∈ [cexFmtA], (g.hasVideo && g.hasAudio) = true) →
      ∃ f as bs, fallbackFormat [cexFmtA] = some f ∧ (f.hasVideo && f.hasAudio) = true
        ∧ [cexFmtA] = as ++ f :: bs ∧ ∀ g ∈ as, (g.hasVideo && g.hasAudio) = false)
    ∧ ((∀ g ∈ [cexFmtA], (g.hasVideo && g.hasAudio) = false) →
        fallbackFormat [cexFmtA] = [cexFmtA].head?) :=
  c1_selection_chain "720p" [cexFmtA] (by decide)

/-- C1 counterexample: with selector 720p the handler returns the earlier
format whose quality label matches, although a later format's identifier
matches exactly; the spec's identifier-first selection would return the
latter. -/
theorem c1_counterexample_label_over_itag :
    selectFormat (some "720p") [cexFmtA, cexFmtB] = some cexFmtA
    ∧ cexFmtA.itag ≠ "720p"
    ∧ cexFmtB ∈ [cexFmtA, cexFmtB]
    ∧ cexFmtB.itag = "720p"
    ∧ specSelectFormat (some "720p") [cexFmtA, cexFmtB] = some cexFmtB
    ∧ cexFmtA ≠ cexFmtB := by
  refine ⟨by decide, by decide, by decide, by decide, by decide, by decide⟩

/-- C3 (amended): the url/quality handler replies 400 without a URL, 500
when resolution fails, and 404 exactly when selection fails, which over
the resolved candidate list happens exactly when the list is empty or no
entry has a usable source URL; an upstream status of at least 400 is
turned into a 500; the itag variant replies 400, not 404, when the
requested format is unavailable. -/
theorem c3_error_statuses (resolve : String → Option RawVideoInfo)
    (validate : String → Bool) (u : String)
    (filename? quality? itag? : Option String) (raw : RawVideoInfo)
    (hu : u ≠ "") (hd : percentDecode u.data = some u.data)
    (hyt : (containsStr u "youtube.com" || containsStr u "youtu.be") = true) :
    handleDownload resolve none filename? quality?
      = { resolvedUrl := none, reply := .errorStatus 400 }
    ∧ (resolve u = none →
        handleDownload resolve (some u) filename? quality?
          = { resolvedUrl := some u, reply := .errorStatus 500 })
    ∧ (resolve u = some raw →
        ((handleDownload resolve (some u) filename? quality?).reply = .errorStatus 404
          ↔ selectionFails quality? (processFormats raw.formats) = true))
    ∧ (selectionFails quality? (processFormats raw.formats) = true
        ↔ (processFormats raw.formats = []
            ∨ ∀ f ∈ processFormats raw.formats, f.url = ""))
    ∧ (∀ up : UpstreamHead, 400 ≤ up.statusCode → upstreamReply up = .errorStatus 500)
    ∧ (jsTruthyStr itag? = true → validate u = true → resolve u = some raw →
        raw.formats.find? (fun f => decide (f.format_id = itag?.getD "")) = none →
        handleDownloadItag resolve validate (some u) itag? filename?
          = { resolvedUrl := some u, spawned := false, reply := .errorStatus 400 }) := by
  refine ⟨rfl, ?_, ?_, ?_, ?_, ?_⟩
  · intro hres
    rw [handleDownload_yt_self resolve u filename? quality? hu hd hyt, hres]
  · intro hres
    rw [handleDownload_yt_self resolve u filename? quality? hu hd hyt, hres]
    unfold selectionFails
    cases hsel : selectFormat quality? (processFormats raw.formats) with
    | none => simp [hsel]
    | some f =>
      by_cases hfu : f.url = ""
      · simp [hsel, hfu]
      · simp [hsel, hfu]
  · constructor
    · intro hf
      exact Or.inl (selectionFails_iff.mp hf)
    · rintro (he | hall)
      · exact selectionFails_iff.mpr he
      · apply selectionFails_iff.mpr
        cases hfs : processFormats raw.formats with
        | nil => rfl
        | cons a t =>
          have ha : a ∈ processFormats raw.formats := by
            rw [hfs]
            exact List.mem_cons_self _ _
          exact absurd (hall a ha) (processFormats_url ha)
  · intro up h5
    unfold upstreamReply
    rw [if_pos h5]
  · intro hit hval hres hfind
    unfold handleDownloadItag
    rw [show jsTruthyStr (some u) = true from decide_eq_true hu, hit]
    simp only [Bool.and_self, if_true]
    rw [show (some u).getD "" = u from rfl, hval]
    simp only [if_true]
    rw [hres]
    simp only [hfind]

/-- Witness for C3 at a concrete resolver, manifest and requests. -/
theorem c3_error_statuses_witness :
    handleDownload cexResolve none none (some "22")
      = { resolvedUrl := none, reply := .errorStatus 400 }
    ∧ (cexResolve "https://youtu.be/abc" = none →
        handleDownload cexResolve (some "https://youtu.be/abc") none (some "22")
          = { resolvedUrl := some "https://youtu.be/abc", reply := .errorStatus 500 })
    ∧ (cexResolve "https://youtu.be/abc" = some cexRawInfo →
        ((handleDownload cexResolve (some "https://youtu.be/abc") none (some "22")).reply
            = .errorStatus 404
          ↔ selectionFails (some "22") (processFormats cexRawInfo.formats) = true))
    ∧ (selectionFails (some "22") (processFormats cexRawInfo.formats) = true
        ↔ (processFormats cexRawInfo.formats = []
            ∨ ∀ f ∈ processFormats cexRawInfo.formats, f.url = ""))
    ∧ (∀ up : UpstreamHead, 400 ≤ up.statusCode → upstreamReply up = .errorStatus 500)
    ∧ (jsTruthyStr (some "99") = true → allValid "https://youtu.be/abc" = true →
        cexResolve "https://youtu.be/abc" = some cexRawInfo →
        cexRawInfo.formats.find? (fun f => decide (f.format_id = (some "99").getD "")) = none →
        handleDownloadItag cexResolve allValid (some "https://youtu.be/abc") (some "99") none
          = { resolvedUrl := some "https://youtu.be/abc",
              spawned := false, reply := .errorStatus 400 }) :=
  c3_error_statuses cexResolve allValid "https://youtu.be/abc" none (some "22") (some "99")
    cexRawInfo (by decide) (by decide) (by decide)

/-- C3 counterexample: the itag variant of the download endpoint answers
an unavailable format with status 400, not 404 as the claim states. -/
theorem c3_counterexample_unavailable_format_400 :
    cexRawInfo.formats.find? (fun f => decide (f.format_id = "99")) = none
    ∧ handleDownloadItag cexResolve allValid
        (some "https://www.youtube.com/watch?v=abc") (some "99") none
      = { resolvedUrl := some "https://www.youtube.com/watch?v=abc",
          spawned := false, reply := .errorStatus 400 } := by
  refine ⟨by decide, by decide⟩

/-- C10 (amended): when the percent-decoded url contains neither
youtube.com nor youtu.be, the handler performs no metadata resolution and
no format selection and relays the decoded url directly, the filename
defaulting to download.mp4. -/
theorem c10_direct_relay (resolve : String → Option RawVideoInfo)
    (u : String) (dc : List Char) (filename? quality? : Option String)
    (hu : u ≠ "") (hd : percentDecode u.data = some dc)
    (h1 : containsStr (String.mk dc) "youtube.com" = false)
    (h2 : containsStr (String.mk dc) "youtu.be" = false) :
    handleDownload resolve (some u) filename? quality? =
      { resolvedUrl := none
        reply := .fetch (String.mk dc)
          (if jsTruthyStr filename? then filename?.getD "" else "download.mp4") } := by
  unfold handleDownload
  rw [show jsTruthyStr (some u) = true from decide_eq_true hu]
  simp only [if_true]
  rw [show (some u).getD "" = u from rfl, hd]
  simp only [h1, h2, Bool.or_self, if_false]
  rfl

/-- Witness for C10 on a concrete non-YouTube url. -/
theorem c10_direct_relay_witness :
    handleDownload cexResolve (some "http://cdn.example/v.mp4") none none =
      { resolvedUrl := none
        reply := DlReply.fetch (String.mk ("http://cdn.example/v.mp4").data)
          (if jsTruthyStr none then (none : Option String).getD "" else "download.mp4") } :=
  c10_direct_relay cexResolve "http://cdn.example/v.mp4" ("http://cdn.example/v.mp4").data
    none none (by decide) (by decide) (by decide) (by decide)

/-- C10 counterexample: a url query parameter that contains neither
youtube.com nor youtu.be as written, but percent-decodes to a YouTube
host, does trigger metadata resolution. -/
theorem c10_counterexample_escaped_host :
    containsStr "https://youtube%2Ecom/watch?v=abc" "youtube.com" = false
    ∧ containsStr "https://youtube%2Ecom/watch?v=abc" "youtu.be" = false
    ∧ (handleDownload cexResolve (some "https://youtube%2Ecom/watch?v=abc") none none).resolvedUrl
        = some "https://youtube.com/watch?v=abc" := by
  refine ⟨by decide, by decide, by decide⟩

end YtProxy
